import Mathlib

/-!
Verification of `mlir/utils/spirv/gen_spirv_dialect.py` (SPIR-V dialect
definition generator).  The Python source is shallowly embedded: Python
strings become `List Char` (named `Str`), Python string methods
(`split`, `rstrip`, `strip`, `lower`, `join`, …) are modelled as
executable Lean functions with CPython semantics, dictionaries become
association lists, file contents are passed in and returned as strings
(the file store is an external collaborator per the design), and every
`assert` / uncaught exception becomes an `Except Err` error value.

The stdlib `textwrap.TextWrapper(width=76, initial_indent='    ',
subsequent_indent='    ')` collaborator is modelled faithfully for text
without tabs and without the hyphen/em-dash special cases of CPython's
`wordsep_re` (the generator only feeds it instruction documentation):
whitespace is munged to spaces, the text splits into alternating runs
of spaces and non-spaces, and lines are filled greedily with
`drop_whitespace` and `break_long_words` behaviour.
-/

set_option maxRecDepth 40000

/-- Python strings are modelled as lists of characters. -/
abbrev Str : Type := List Char

/-- Coerce a Lean string literal to the `Str` model. -/
def str (s : String) : Str := s.data

/-- Errors: every Python `assert` failure or uncaught exception in the
generator is modelled as one of these. -/
inductive Err where
  /-- `assert len(content) == 3` in the section updaters (marker count). -/
  | markerCount : Err
  /-- `max()` applied to an empty sequence (`ValueError`). -/
  | maxEmpty : Err
  /-- the asserts rejecting `IdResultType` / `IdResult` operands. -/
  | resultKind : Err
  /-- `assert quantifier == ''` for memory semantics / scope operands. -/
  | unsupportedQuantifier : Err
  /-- `assert False, '"..." kind unimplemented'`. -/
  | unimplementedKind : Err
  /-- `assert quantifier != '*'` for enum attribute operands. -/
  | invalidVariadicEnum : Err
  /-- unpacking `doc.split('\n', 1)` into two names failed (`ValueError`). -/
  | docSplit : Err
  /-- `assert len(rest) == 2` in `get_string_between`. -/
  | delimiterNotFound : Err
  /-- `assert len(opname) == 1` in `extract_td_op_info`. -/
  | opnameCount : Err
  /-- `op_def.split('<', 1)[1]` with no `<` present (`IndexError`). -/
  | indexError : Err
  /-- `next(...)` found no instruction for an opname (`StopIteration`). -/
  | noInstruction : Err
  /-- `docs[opname]` lookup failed (`KeyError`). -/
  | noDoc : Err
deriving DecidableEq, Repr

instance exceptDecEq {ε α : Type} [DecidableEq ε] [DecidableEq α] :
    DecidableEq (Except ε α) := fun x y =>
  match x, y with
  | .ok a, .ok b =>
      if h : a = b then .isTrue (by rw [h]) else
        .isFalse (fun hh => h (Except.ok.inj hh))
  | .error a, .error b =>
      if h : a = b then .isTrue (by rw [h]) else
        .isFalse (fun hh => h (Except.error.inj hh))
  | .ok _, .error _ => .isFalse (fun hh => Except.noConfusion hh)
  | .error _, .ok _ => .isFalse (fun hh => Except.noConfusion hh)

/-! ### Python string primitives -/

/-- Python `str.isspace` characters as they occur in ASCII text
(the whitespace set of `str.split()` / `str.strip()`). -/
def pyIsSpace (c : Char) : Bool :=
  c = ' ' || c = '\t' || c = '\n' || c = '\r' || c = '\x0b' || c = '\x0c'

/-- The regex class `\w` over ASCII: letters, digits and underscore. -/
def isWordChar (c : Char) : Bool :=
  ('a' ≤ c && c ≤ 'z') || ('A' ≤ c && c ≤ 'Z') || ('0' ≤ c && c ≤ '9') || c = '_'

/-- Python `str.lower` on the ASCII range (all names fed to it are ASCII). -/
def pyLowerChar (c : Char) : Char :=
  match c with
  | 'A' => 'a' | 'B' => 'b' | 'C' => 'c' | 'D' => 'd' | 'E' => 'e'
  | 'F' => 'f' | 'G' => 'g' | 'H' => 'h' | 'I' => 'i' | 'J' => 'j'
  | 'K' => 'k' | 'L' => 'l' | 'M' => 'm' | 'N' => 'n' | 'O' => 'o'
  | 'P' => 'p' | 'Q' => 'q' | 'R' => 'r' | 'S' => 's' | 'T' => 't'
  | 'U' => 'u' | 'V' => 'v' | 'W' => 'w' | 'X' => 'x' | 'Y' => 'y'
  | 'Z' => 'z' | c => c

/-- Python `str.lower` lifted to strings. -/
def pyLowerStr (s : Str) : Str := s.map pyLowerChar

/-- First occurrence of `pat` in `s`: returns the part strictly before
the occurrence and the part strictly after it (Python `str.find` /
`str.split(pat, 1)` semantics, leftmost match). -/
def splitFirst (pat : Str) : Str → Option (Str × Str)
  | [] => if pat.isPrefixOf ([] : Str) then some ([], []) else none
  | c :: cs =>
      if pat.isPrefixOf (c :: cs) then some ([], (c :: cs).drop pat.length)
      else (splitFirst pat cs).map (fun p => (c :: p.1, p.2))

/-- Python `s.split(sep)` (all occurrences), fueled so that it reduces in
the kernel; `pySplitAux (s.length + 1) s sep` is always enough fuel. -/
def pySplitAux (sep : Str) : Nat → Str → List Str
  | 0, s => [s]
  | fuel + 1, s =>
      match splitFirst sep s with
      | none => [s]
      | some (a, b) => a :: pySplitAux sep fuel b

/-- Python `s.split(sep)` for a non-empty separator. -/
def pySplit (s sep : Str) : List Str := pySplitAux sep (s.length + 1) s

/-- Python `sep.join(parts)`. -/
def pyJoin (sep : Str) : List Str → Str
  | [] => []
  | [x] => x
  | x :: y :: xs => x ++ sep ++ pyJoin sep (y :: xs)

/-- Python `s.rstrip(chars)`: remove trailing characters drawn from `chars`. -/
def rstripChars (s chars : Str) : Str :=
  (s.reverse.dropWhile (fun c => chars.contains c)).reverse

/-- Python `s.lstrip(chars)`. -/
def lstripChars (s chars : Str) : Str :=
  s.dropWhile (fun c => chars.contains c)

/-- Python `s.strip(chars)`. -/
def pyStripChars (s chars : Str) : Str := rstripChars (lstripChars s chars) chars

/-- Python `s.strip()` (whitespace strip). -/
def pyStripWs (s : Str) : Str :=
  ((s.dropWhile pyIsSpace).reverse.dropWhile pyIsSpace).reverse

/-- Python `s.split()` helper: `acc` is the current (reversed) token. -/
def splitWsAux : Str → Str → List Str
  | [], acc => if acc = [] then [] else [acc.reverse]
  | c :: cs, acc =>
      if pyIsSpace c then
        if acc = [] then splitWsAux cs [] else acc.reverse :: splitWsAux cs []
      else splitWsAux cs (c :: acc)

/-- Python `s.split()` — split on whitespace runs, dropping empty tokens. -/
def splitWs (s : Str) : List Str := splitWsAux s []

/-- Decimal rendering of a value, as Python `format` renders an `int`. -/
def natToStr (n : Nat) : Str := (Nat.repr n).data

/-- Python slice `s[:-n]` for `n ≥ 1`: drop the last `n` characters. -/
def dropLastN (s : Str) (n : Nat) : Str := s.take (s.length - n)

/-- Python `'{:>w}'.format(':')`: right-align a colon in width `w`. -/
def alignColon (w : Nat) : Str := List.replicate (w - 1) ' ' ++ [':']

/-- Strict lexicographic comparison of strings by code point
(Python `<` on `str`). -/
def lexLt : Str → Str → Bool
  | [], [] => false
  | [], _ :: _ => true
  | _ :: _, [] => false
  | a :: as_, b :: bs_ => if a < b then true else if a = b then lexLt as_ bs_ else false

/-- Non-strict lexicographic comparison (Python `<=` on `str`). -/
def lexLe (a b : Str) : Bool := lexLt a b || a == b

/-- Keep the first occurrence of every element (Python `list(set(...))`
modelled so that only membership is meaningful, as in the source). -/
def dedupAux : List Str → List Str → List Str
  | [], _ => []
  | x :: xs, seen =>
      if seen.contains x then dedupAux xs seen else x :: dedupAux xs (x :: seen)

/-- Insertion of a string into a sorted list (ascending, stable). -/
def insertStr (x : Str) : List Str → List Str
  | [] => [x]
  | y :: ys => if lexLe x y then x :: y :: ys else y :: insertStr x ys

/-- Insertion sort of strings, ascending by code point. -/
def sortStrs : List Str → List Str
  | [] => []
  | x :: xs => insertStr x (sortStrs xs)

/-- Python `sorted(list(set(l)))`: distinct elements in ascending order. -/
def sortedDedup (l : List Str) : List Str := sortStrs (dedupAux l [])

/-- `mapM` over `Except` kept as plain structural recursion so that it
reduces in the kernel. -/
def exceptMapM {α β : Type} (f : α → Except Err β) : List α → Except Err (List β)
  | [] => .ok []
  | x :: xs =>
      match f x with
      | .error e => .error e
      | .ok y =>
          match exceptMapM f xs with
          | .error e => .error e
          | .ok ys => .ok (y :: ys)

/-! ### Basic lemmas about the string primitives -/

theorem splitFirst_append {pat : Str} :
    ∀ {s a b : Str}, splitFirst pat s = some (a, b) → s = a ++ pat ++ b := by
  intro s
  induction s with
  | nil =>
      intro a b h
      simp only [splitFirst] at h
      by_cases hp : pat.isPrefixOf ([] : Str)
      · rw [if_pos hp] at h
        have hpat : pat = [] := by
          cases pat with
          | nil => rfl
          | cons p ps => simp [List.isPrefixOf] at hp
        cases h
        simp [hpat]
      · rw [if_neg hp] at h
        cases h
  | cons c cs ih =>
      intro a b h
      simp only [splitFirst] at h
      by_cases hp : pat.isPrefixOf (c :: cs)
      · rw [if_pos hp] at h
        cases h
        have hpre : pat <+: (c :: cs) := by
          exact (List.isPrefixOf_iff_prefix).mp hp
        obtain ⟨t, ht⟩ := hpre
        have hd : (c :: cs).drop pat.length = t := by
          rw [← ht]
          exact List.drop_left pat t
        rw [hd, ← ht]
        simp
      · rw [if_neg hp] at h
        cases hsf : splitFirst pat cs with
        | none => rw [hsf] at h; cases h
        | some p =>
            rw [hsf] at h
            obtain ⟨p1, p2⟩ := p
            simp only [Option.map_some'] at h
            cases h
            have hcs := ih hsf
            rw [List.cons_append, List.cons_append, ← hcs]

theorem splitFirst_shrinks {pat s a b : Str} (hpat : pat ≠ [])
    (h : splitFirst pat s = some (a, b)) : b.length < s.length := by
  have happ := splitFirst_append h
  have : s.length = a.length + pat.length + b.length := by
    rw [happ]; simp [List.length_append]; omega
  have hplen : 0 < pat.length := List.length_pos.mpr hpat
  omega

theorem pySplitAux_ne_nil (sep : Str) : ∀ fuel s, pySplitAux sep fuel s ≠ [] := by
  intro fuel
  cases fuel with
  | zero => intro s; simp [pySplitAux]
  | succ f =>
      intro s
      simp only [pySplitAux]
      cases h : splitFirst sep s with
      | none => simp
      | some p => obtain ⟨a, b⟩ := p; simp

theorem pyJoin_pySplitAux (sep : Str) (hsep : sep ≠ []) :
    ∀ fuel s, s.length < fuel → pyJoin sep (pySplitAux sep fuel s) = s := by
  intro fuel
  induction fuel with
  | zero => intro s h; omega
  | succ f ih =>
      intro s hlen
      simp only [pySplitAux]
      cases h : splitFirst sep s with
      | none => simp [pyJoin]
      | some p =>
          obtain ⟨a, b⟩ := p
          have happ := splitFirst_append h
          have hb : b.length < f := by
            have := splitFirst_shrinks hsep h
            omega
          have hrec := ih b hb
          have hne := pySplitAux_ne_nil sep f b
          show pyJoin sep (a :: pySplitAux sep f b) = s
          cases hsp : pySplitAux sep f b with
          | nil => exact absurd hsp hne
          | cons x xs =>
              rw [hsp] at hrec
              simp only [pyJoin]
              rw [hrec, happ]

/-- Joining the parts of a Python `split` with the separator recovers the
original string. -/
theorem pyJoin_pySplit (s sep : Str) (hsep : sep ≠ []) :
    pyJoin sep (pySplit s sep) = s :=
  pyJoin_pySplitAux sep hsep (s.length + 1) s (by omega)

/-! ### Data model (grammar objects fed to the generator) -/

/-- One instruction operand from the JSON grammar: `kind`, optional
`quantifier` (`''`, `'?'` or `'*'` in the spec; `operand.get('quantifier', '')`)
and optional `name` (`operand.get('name', '')`). -/
structure Operand where
  kind : Str
  quantifier : Str
  name : Str
deriving DecidableEq, Repr

/-- One instruction from the JSON grammar. -/
structure Instruction where
  opname : Str
  opcode : Nat
  operands : List Operand
deriving DecidableEq, Repr

/-- One operand kind from the JSON grammar; `enumerants` is `none` when the
`'enumerants'` key is absent, and each enumerant is an
`(enumerant, value)` pair as built on line 148 of the source. -/
structure OperandKind where
  kind : Str
  category : Str
  enumerants : Option (List (Str × Nat))
deriving DecidableEq, Repr

/-- The dict of potentially manually specified sections recovered from an
existing op definition (`extract_td_op_info` result); an absent key is
`none`, and `{}` (no existing info) is `emptyInfo`. -/
structure ExistingInfo where
  opname : Str
  category_args : Option Str
  traits : Option Str
  assembly : Option Str
  arguments : Option Str
  results : Option Str
  extras : Option Str
deriving DecidableEq, Repr

/-- The empty `existing_info` dict `{}`. -/
def emptyInfo : ExistingInfo := ⟨[], none, none, none, none, none, none⟩

/-! ### Text formatting utilities (source lines 84-131, 302-306) -/

/-- One step of the accumulation loop of `split_list_into_sublists`:
state is `(chuncks, chunk, chunk_len)`. -/
def split_step (st : List (List Str) × List Str × Nat) (item : Str) :
    List (List Str) × List Str × Nat :=
  let cl := st.2.2 + item.length + 2
  if 80 < cl then (st.1 ++ [st.2.1], [item], item.length + 2)
  else (st.1, st.2.1 ++ [item], cl)

/-- `split_list_into_sublists(items, offset)` (source lines 84-109): greedy
packing of items so that each sublist joined with `', '` stays within 80
characters; the `offset` argument is accepted but never read by the body. -/
def split_list_into_sublists (items : List Str) (offset : Nat) : List (List Str) :=
  let st := items.foldl split_step ([], [], 0)
  if st.2.1.length ≠ 0 then st.1 ++ [st.2.1] else st.1

/-- `uniquify(lst, equality_fn)` helper carrying the `keys` set. -/
def uniquifyAux {α β : Type} [DecidableEq β] (f : α → β) :
    List α → List β → List α
  | [], _ => []
  | x :: xs, seen =>
      if f x ∈ seen then uniquifyAux f xs seen
      else x :: uniquifyAux f xs (f x :: seen)

/-- `uniquify(lst, equality_fn)` (source lines 112-131): prune elements whose
key was already seen, keeping the first occurrence, preserving order. -/
def uniquify {α β : Type} [DecidableEq β] (lst : List α) (equality_fn : α → β) :
    List α := uniquifyAux equality_fn lst []

/-- `snake_casify(name)` (source lines 302-306): `re.sub('\W+', '', name)`
removes every non-word character (including whitespace), the result is then
whitespace-split, lowercased and joined with `'_'`. -/
def snake_casify (name : Str) : Str :=
  pyJoin (str "_") ((splitWs (name.filter isWordChar)).map pyLowerStr)

/-! ### `get_string_between` (source lines 459-479) -/

/-- `get_string_between(base, start, end)`: extract the substring between the
first occurrence of `start` and the following first occurrence of `ending`.
When `start` is absent the function returns `('', base)` without error; when
`start` is present but `ending` is not found afterwards, the `assert` fires. -/
def get_string_between (base start ending : Str) : Except Err (Str × Str) :=
  match splitFirst start base with
  | some (_, after) =>
      match splitFirst ending after with
      | some (mid, tail) => .ok (rstripChars mid ending, tail)
      | none => .error .delimiterNotFound
  | none => .ok ([], base)

/-! ### `map_spec_operand_to_ods_argument` (source lines 309-364) -/

/-- The seven operand kinds rejected by the `assert False, '"..." kind
unimplemented'` branch (source lines 346-353). -/
def unimplementedKinds : List Str :=
  [str "LiteralString", str "LiteralContextDependentNumber",
   str "LiteralExtInstInteger", str "LiteralSpecConstantOpInteger",
   str "PairLiteralIntegerIdRef", str "PairIdRefLiteralInteger",
   str "PairIdRefIdRef"]

/-- The ODS argument name derived on source lines 361-362:
`snake_casify(name) if name else kind.lower()`. -/
def odsArgName (o : Operand) : Str :=
  if o.name ≠ [] then snake_casify o.name else pyLowerStr o.kind

/-- `map_spec_operand_to_ods_argument(operand)` (source lines 309-364). -/
def map_spec_operand_to_ods_argument (o : Operand) : Except Err Str :=
  let kind := o.kind
  let quantifier := o.quantifier
  if kind = str "IdResultType" then .error .resultKind
  else if kind = str "IdResult" then .error .resultKind
  else
    let argTypeE : Except Err Str :=
      if kind = str "IdRef" then
        .ok (if quantifier = [] then str "SPV_Type"
             else if quantifier = str "?" then str "SPV_Optional<SPV_Type>"
             else str "Variadic<SPV_Type>")
      else if kind = str "IdMemorySemantics" ∨ kind = str "IdScope" then
        if quantifier = [] then .ok (str "I32") else .error .unsupportedQuantifier
      else if kind = str "LiteralInteger" then
        .ok (if quantifier = [] then str "I32Attr"
             else if quantifier = str "?" then str "OptionalAttr<I32Attr>"
             else str "OptionalAttr<I32ArrayAttr>")
      else if kind ∈ unimplementedKinds then .error .unimplementedKind
      else if quantifier = str "*" then .error .invalidVariadicEnum
      else
        let t := str "SPV_" ++ kind ++ str "Attr"
        .ok (if quantifier = str "?" then str "OptionalAttr<" ++ t ++ str ">" else t)
    argTypeE.map (fun argType => argType ++ str ":$" ++ odsArgName o)

/-! ### Regex `findall` for the three fixed patterns of the source

`re.findall(pre + '\w+' + suf, s)` where `pre` is a literal containing
non-word characters and `suf` is a (possibly empty) literal made of word
characters.  A match at a position takes the literal prefix, then the
maximal word-character run; with a non-empty suffix the greedy `\w+`
backtracks to the last occurrence of the suffix inside that run that
leaves at least one word character before it.  Scanning is left to right
and non-overlapping, advancing one character on failure. -/

/-- Largest `j ≥ 1` such that `suf` occurs in `run` at offset `j`
(the backtracked end of the greedy `\w+`). -/
def lastMatchPosAux (run suf : Str) : Nat → Option Nat
  | 0 => none
  | j + 1 =>
      if suf.isPrefixOf (run.drop (j + 1)) ∧ j + 1 + suf.length ≤ run.length
      then some (j + 1)
      else lastMatchPosAux run suf j

/-- Backtracked split point for pattern `\w+suf` against the word run `run`. -/
def lastMatchPos (run suf : Str) : Option Nat := lastMatchPosAux run suf run.length

/-- Fueled scanner for `re.findall(pre + '\w+' + suf, s)`. -/
def findAllAux (pre suf : Str) : Nat → Str → List Str
  | 0, _ => []
  | _ + 1, [] => []
  | fuel + 1, c :: cs =>
      if pre.isPrefixOf (c :: cs) then
        let rest := (c :: cs).drop pre.length
        let run := rest.takeWhile isWordChar
        if suf = [] then
          if run ≠ [] then
            (pre ++ run) :: findAllAux pre suf fuel (rest.drop run.length)
          else findAllAux pre suf fuel cs
        else
          match lastMatchPos run suf with
          | some j =>
              (pre ++ run.take j ++ suf) ::
                findAllAux pre suf fuel (rest.drop (j + suf.length))
          | none => findAllAux pre suf fuel cs
      else findAllAux pre suf fuel cs

/-- `re.findall(pre + '\w+' + suf, s)` for the three patterns used by the
source (`'def SPV_\w+Op'`, `'def SPV_\w+Attr'`, `'def SPV_OC_\w+'`). -/
def reFindAll (pre suf s : Str) : List Str := findAllAux pre suf (s.length + 1) s

/-! ### Enum fragment generator (source lines 134-187) -/

/-- The case-definition lines of `gen_operand_kind_enum_attr`
(the list comprehension on source lines 156-164). -/
def enum_case_defs (acronym category : Str) (maxLen : Nat)
    (kindCases : List (Str × Nat)) : List Str :=
  kindCases.map (fun case_ =>
    str "def SPV_" ++ acronym ++ str "_" ++ case_.1 ++ str " " ++
      alignColon (maxLen + 1 - case_.1.length) ++ str " " ++
      category ++ str "EnumAttrCase<\"" ++ case_.1 ++ str "\", " ++
      natToStr case_.2 ++ str ">;")

/-- `gen_operand_kind_enum_attr(operand_kind)` (source lines 134-187).
Returns `('', '')` when the kind has no `'enumerants'` key; raises
(`max()` on an empty sequence) when the key is present but empty. -/
def gen_operand_kind_enum_attr (operand_kind : OperandKind) :
    Except Err (Str × Str) :=
  match operand_kind.enumerants with
  | none => .ok ([], [])
  | some enumerants =>
      let kind_name := operand_kind.kind
      let kind_category :=
        if operand_kind.category = str "BitEnum" then str "Bit" else str "I32"
      let kind_acronym := kind_name.filter (fun c => 'A' ≤ c && c ≤ 'Z')
      let kind_cases := uniquify enumerants (fun x => x.2)
      match kind_cases with
      | [] => .error .maxEmpty
      | kc0 :: kcRest =>
          let max_len :=
            (kcRest.map (fun p => p.1.length)).foldl Nat.max kc0.1.length
          let case_defs :=
            pyJoin (str "\n")
              (enum_case_defs kind_acronym kind_category max_len (kc0 :: kcRest))
          let case_names :=
            (kc0 :: kcRest).map (fun case_ =>
              str "SPV_" ++ kind_acronym ++ str "_" ++ case_.1)
          let case_names_lines :=
            pyJoin (str ",\n")
              ((split_list_into_sublists case_names 6).map
                (fun sublist => str "      " ++ pyJoin (str ", ") sublist))
          let enum_attr :=
            str "def SPV_" ++ kind_name ++ str "Attr :\n    " ++ kind_category ++
            str "EnumAttr<\"" ++ kind_name ++ str "\", \"valid SPIR-V " ++
            kind_name ++ str "\", [\n" ++ case_names_lines ++
            str "\n    ]> \x7b\n  let returnType = \"::mlir::spirv::" ++
            kind_name ++
            str "\";\n  let convertFromStorage = \"static_cast<::mlir::spirv::" ++
            kind_name ++
            str ">($_self.getInt())\";\n  let cppNamespace = \"::mlir::spirv\";\n\x7d"
          .ok (kind_name, case_defs ++ str "\n\n" ++ enum_attr)

/-! ### Opcode fragment generator (source lines 190-227) -/

/-- `gen_opcode(instructions)` (source lines 190-227); `max()` raises on an
empty instruction list. -/
def gen_opcode (instructions : List Instruction) : Except Err Str :=
  match instructions with
  | [] => .error .maxEmpty
  | i0 :: iRest =>
      let max_len :=
        (iRest.map (fun i => i.opname.length)).foldl Nat.max i0.opname.length
      let opcode_str :=
        pyJoin (str "\n")
          ((i0 :: iRest).map (fun inst =>
            str "def SPV_OC_" ++ inst.opname ++ str " " ++
              alignColon (max_len + 1 - inst.opname.length) ++ str " " ++
              str "I32EnumAttrCase<\"" ++ inst.opname ++ str "\", " ++
              natToStr inst.opcode ++ str ">;"))
      let opcode_list :=
        (i0 :: iRest).map (fun inst => str "SPV_OC_" ++ inst.opname)
      let opcode_lines :=
        pyJoin (str ",\n")
          ((split_list_into_sublists opcode_list 6).map
            (fun sublist => str "      " ++ pyJoin (str ", ") sublist))
      let enum_attr :=
        str "def SPV_OpcodeAttr :\n    I32EnumAttr<\"Opcode\", " ++
        str "\"valid SPIR-V instructions\", [\n" ++ opcode_lines ++
        str "\n      ]> \x7b\n    let returnType = \"::mlir::spirv::Opcode\";\n" ++
        str "    let convertFromStorage = " ++
        str "\"static_cast<::mlir::spirv::Opcode>($_self.getInt())\";\n" ++
        str "    let cppNamespace = \"::mlir::spirv\";\n\x7d"
      .ok (opcode_str ++ str "\n\n" ++ enum_attr)

/-! ### Section updaters for SPIRVBase.td (source lines 230-299) -/

/-- `AUTOGEN_ENUM_SECTION_MARKER` (source line 37). -/
def enumSectionMarker : Str :=
  str "enum section. Generated from SPIR-V spec; DO NOT MODIFY!"

/-- `AUTOGEN_OPCODE_SECTION_MARKER` (source lines 38-39). -/
def opcodeSectionMarker : Str :=
  str "opcode section. Generated from SPIR-V spec; DO NOT MODIFY!"

/-- Stable insertion into a list of instructions sorted by opcode. -/
def insertByOpcode (x : Instruction) : List Instruction → List Instruction
  | [] => [x]
  | y :: ys => if x.opcode ≤ y.opcode then x :: y :: ys else y :: insertByOpcode x ys

/-- `filter_instrs.sort(key=lambda inst: inst['opcode'])`: Python's stable
sort by opcode. -/
def sortByOpcode : List Instruction → List Instruction
  | [] => []
  | x :: xs => insertByOpcode x (sortByOpcode xs)

/-- Stable insertion into a list of `(name, text)` pairs sorted by name. -/
def insertByKey (x : Str × Str) : List (Str × Str) → List (Str × Str)
  | [] => [x]
  | y :: ys => if lexLe x.1 y.1 then x :: y :: ys else y :: insertByKey x ys

/-- `defs.sort(key=lambda enum: enum[0])`: Python's stable sort by the
enum name. -/
def sortByKey : List (Str × Str) → List (Str × Str)
  | [] => []
  | x :: xs => insertByKey x (sortByKey xs)

/-- `update_td_opcodes(path, instructions, filter_list)` (source lines
230-263), with the file contents passed in and the new contents returned
(the read/write collaborator is external). -/
def update_td_opcodes (content : Str) (instructions : List Instruction)
    (filter_list : List Str) : Except Err Str :=
  match pySplit content opcodeSectionMarker with
  | [pre, mid, post] =>
      let existing_opcodes :=
        (reFindAll (str "def SPV_OC_") [] mid).map (fun k => k.drop 11)
      let filter2 := dedupAux (filter_list ++ existing_opcodes) []
      let filter_instrs :=
        instructions.filter (fun inst => filter2.contains inst.opname)
      let sorted_instrs := sortByOpcode filter_instrs
      match gen_opcode sorted_instrs with
      | .error e => .error e
      | .ok opcode =>
          .ok (pre ++ opcodeSectionMarker ++ str "\n\n" ++ opcode ++
               str "\n\n// End " ++ opcodeSectionMarker ++ post)
  | _ => .error .markerCount

/-- `update_td_enum_attrs(path, operand_kinds, filter_list)` (source lines
266-299), file contents in, new contents out. -/
def update_td_enum_attrs (content : Str) (operand_kinds : List OperandKind)
    (filter_list : List Str) : Except Err Str :=
  match pySplit content enumSectionMarker with
  | [pre, mid, post] =>
      let existing_kinds :=
        (reFindAll (str "def SPV_") (str "Attr") mid).map
          (fun k => dropLastN (k.drop 8) 4)
      let filter2 := filter_list ++ existing_kinds
      let selected :=
        operand_kinds.filter (fun kind => filter2.contains kind.kind)
      match exceptMapM gen_operand_kind_enum_attr selected with
      | .error e => .error e
      | .ok defs =>
          let defs2 := (sortByKey defs).map (fun enum => enum.2)
          .ok (pre ++ enumSectionMarker ++ str "\n\n" ++
               pyJoin (str "\n\n") defs2 ++ str "\n\n// End " ++
               enumSectionMarker ++ post)
  | _ => .error .markerCount

/-! ### `textwrap.TextWrapper(width=76, initial_indent='    ',
subsequent_indent='    ')` model (external collaborator)

Effective line width is `76 - 4 = 72`; both indents are four spaces;
`drop_whitespace` and `break_long_words` are on (defaults). -/

/-- `_munge_whitespace`: every whitespace character becomes a space. -/
def mungeWhitespace (s : Str) : Str :=
  s.map (fun c => if pyIsSpace c then ' ' else c)

/-- Split munged text into alternating maximal runs of spaces and
non-spaces (the chunk list of `TextWrapper._split`). -/
def splitChunksAux : Nat → Str → List Str
  | 0, _ => []
  | _ + 1, [] => []
  | fuel + 1, c :: cs =>
      let run := (c :: cs).takeWhile (fun x => (x == ' ') == (c == ' '))
      run :: splitChunksAux fuel ((c :: cs).drop run.length)

/-- The chunk list of a munged text. -/
def splitChunks (s : Str) : List Str := splitChunksAux (s.length + 1) s

/-- Inner greedy loop of `_wrap_chunks`: move chunks onto the current line
while they fit in width 72.  Returns remaining chunks, the line chunks,
and the line length. -/
def fillLine : List Str → Nat → List Str → List Str × List Str × Nat
  | [], n, acc => ([], acc, n)
  | c :: cs, n, acc =>
      if n + c.length ≤ 72 then fillLine cs (n + c.length) (acc ++ [c])
      else (c :: cs, acc, n)

/-- `_handle_long_word` with `break_long_words=True` (and no hyphen
breaking): chop `72 - cur_len` characters off the long chunk. -/
def handleLongWord (c : Str) (cs : List Str) (curLine : List Str)
    (curLen : Nat) : List Str × List Str :=
  let spaceLeft := 72 - curLen
  (c.drop spaceLeft :: cs, curLine ++ [c.take spaceLeft])

/-- Is a chunk entirely whitespace (`chunk.strip() == ''`)?  After munging,
whitespace is exactly the space character. -/
def chunkIsWs (c : Str) : Bool := c.all (fun x => x = ' ')

/-- Drop a trailing whitespace chunk from the line (`drop_whitespace`). -/
def dropTrailingWsChunk (line : List Str) : List Str :=
  match line.getLast? with
  | some last => if chunkIsWs last then line.dropLast else line
  | none => line

/-- Outer loop of `_wrap_chunks`; fuel `total length + chunk count + 1`
strictly dominates the loop's progress measure. -/
def wrapAux : Nat → List Str → List Str → List Str
  | 0, _, lines => lines
  | _ + 1, [], lines => lines
  | fuel + 1, c0 :: cs0, lines =>
      let chunks1 :=
        if lines ≠ [] ∧ chunkIsWs c0 then cs0 else c0 :: cs0
      match chunks1 with
      | [] => lines
      | _ :: _ =>
          let filled := fillLine chunks1 0 []
          let rest := filled.1
          let afterLong :=
            match rest with
            | c :: cs =>
                if 72 < c.length then handleLongWord c cs filled.2.1 filled.2.2
                else (rest, filled.2.1)
            | [] => ([], filled.2.1)
          let curLine := dropTrailingWsChunk afterLong.2
          let lines2 :=
            if curLine ≠ [] then lines ++ [str "    " ++ curLine.flatten]
            else lines
          wrapAux fuel afterLong.1 lines2

/-- Total character count of a chunk list. -/
def totalLen (l : List Str) : Nat := (l.map (fun s => s.length)).sum

/-- `wrapper.fill(text)`: munge, chunk, wrap, join with newlines. -/
def pyFill (text : Str) : Str :=
  let chunks := splitChunks (mungeWhitespace text)
  pyJoin (str "\n") (wrapAux (totalLen chunks + chunks.length + 1) chunks [])

/-! ### Operation fragment generator (source lines 367-456) -/

/-- The default placeholder custom assembly form (source lines 438-444). -/
def opDefaultAssembly : Str :=
  str "\n    ``` \x7b.ebnf\x7d\n    [TODO]\n    ```\n\n    For example:\n\n    ```\n    [TODO]\n    ```\n  "

/-- Summary formatting of `get_op_definition` (source lines 400-406):
strip, then either a double-quoted one-liner (when the rendered
`let summary = "...";` line fits in 80 columns) or a wrapped block. -/
def formatSummary (summaryRaw : Str) : Str :=
  let summary := pyStripWs summaryRaw
  if summary.length + 19 ≤ 80 then str "\"" ++ summary ++ str "\""
  else str "[\x7b\n" ++ pyFill summary ++ str "\n  \x7d]"

/-- Description formatting of `get_op_definition` (source lines 408-411):
split into lines, drop empty lines, wrap each, join with blank lines. -/
def formatDescription (descriptionRaw : Str) : Str :=
  pyJoin (str "\n\n")
    (((pySplit descriptionRaw (str "\n")).filter (fun line => line ≠ [])).map
      pyFill)

/-- `get_op_definition(instruction, doc, existing_info, inst_category)`
(source lines 367-456). -/
def get_op_definition (instruction : Instruction) (doc : Str)
    (existing_info : ExistingInfo) (inst_category : Str) : Except Err Str :=
  match splitFirst (str "\n") doc with
  | none => .error .docSplit
  | some (summaryRaw, descriptionRaw) =>
      let opname := instruction.opname.drop 2
      let category_args :=
        rstripChars (existing_info.category_args.getD []) (str ", ") ++ str ", "
      let summary := formatSummary summaryRaw
      let description := formatDescription descriptionRaw
      let stripped :=
        match instruction.operands with
        | o :: rest =>
            if o.kind = str "IdResultType" then
              (str "\n    SPV_Type:$result\n  ", rest)
            else ([], instruction.operands)
        | [] => ([], [])
      let results :=
        match existing_info.results with
        | some r => r
        | none => stripped.1
      let operands2 :=
        match stripped.2 with
        | o :: rest => if o.kind = str "IdResult" then rest else stripped.2
        | [] => []
      let argumentsE : Except Err Str :=
        match existing_info.arguments with
        | some a => .ok a
        | none =>
            match exceptMapM map_spec_operand_to_ods_argument operands2 with
            | .error e => .error e
            | .ok mapped =>
                let joined := pyJoin (str ",\n    ") mapped
                .ok (if joined ≠ [] then str "\n    " ++ joined ++ str "\n  "
                     else joined)
      match argumentsE with
      | .error e => .error e
      | .ok arguments =>
          let assembly :=
            match existing_info.assembly with
            | some a => a
            | none => opDefaultAssembly
          .ok (str "def SPV_" ++ opname ++ str "Op : SPV_" ++ inst_category ++
               str "<\"" ++ opname ++ str "\"" ++ category_args ++ str "[" ++
               existing_info.traits.getD [] ++
               str "]> \x7b\n  let summary = " ++ summary ++
               str ";\n\n  let description = [\x7b\n" ++ description ++
               str "\n\n    ### Custom assembly form\n" ++ assembly ++
               str "\x7d];\n" ++
               (if inst_category = str "Op" then
                  str "\n  let arguments = (ins" ++ arguments ++
                  str ");\n\n  let results = (outs" ++ results ++ str ");\n"
                else []) ++
               existing_info.extras.getD [] ++ str "\x7d\n")

/-! ### Existing-definitions extractor (source lines 482-527) -/

/-- `extract_td_op_info(op_def)` (source lines 482-527). -/
def extract_td_op_info (op_def : Str) : Except Err ExistingInfo :=
  match reFindAll (str "def SPV_") (str "Op") op_def with
  | [m] =>
      let opname := dropLastN (m.drop 8) 2
      match splitFirst (str "<") op_def with
      | none => .error .indexError
      | some (_, afterLt) =>
          let op_tmpl_params :=
            match splitFirst (str ">") afterLt with
            | none => afterLt
            | some (a, _) => a
          match get_string_between op_tmpl_params (str "\"") (str "\"") with
          | .error e => .error e
          | .ok (_opstringname, rest) =>
              let category_args :=
                match splitFirst (str "[") rest with
                | none => rest
                | some (a, _) => a
              match get_string_between rest (str "[") (str "]") with
              | .error e => .error e
              | .ok (traits, _) =>
                  match get_string_between op_def
                      (str "### Custom assembly form\n") (str "\x7d];\n") with
                  | .error e => .error e
                  | .ok (assembly, rest2) =>
                      match get_string_between rest2
                          (str "  let arguments = (ins") (str ");\n") with
                      | .error e => .error e
                      | .ok (args, rest3) =>
                          match get_string_between rest3
                              (str "  let results = (outs") (str ");\n") with
                          | .error e => .error e
                          | .ok (results, rest4) =>
                              let extras0 := pyStripChars rest4 (str " \x7d\n")
                              let extras :=
                                if extras0 ≠ [] then
                                  str "\n  " ++ extras0 ++ str "\n"
                                else extras0
                              .ok ⟨str "Op" ++ opname, some category_args,
                                   some traits, some assembly, some args,
                                   some results, some extras⟩
  | _ => .error .opnameCount

/-! ### Op-file updater (source lines 530-577) -/

/-- `AUTOGEN_OP_DEF_SEPARATOR` (source line 36). -/
def opDefSeparator : Str := str "\n// -----\n\n"

/-- The `op_info_dict[opname] = info_dict` insert (Python dict update). -/
def assocUpdate : List (Str × ExistingInfo) → Str → ExistingInfo →
    List (Str × ExistingInfo)
  | [], k, v => [(k, v)]
  | (k0, v0) :: rest, k, v =>
      if k0 = k then (k, v) :: rest else (k0, v0) :: assocUpdate rest k v

/-- `op_info_dict.get(opname, {})`. -/
def assocGet : List (Str × ExistingInfo) → Str → ExistingInfo
  | [], _ => emptyInfo
  | (k0, v0) :: rest, k => if k0 = k then v0 else assocGet rest k

/-- `docs[opname]` lookup (a missing key is a `KeyError`, hence `none`). -/
def docsGet : List (Str × Str) → Str → Option Str
  | [], _ => none
  | (k0, v0) :: rest, k => if k0 = k then some v0 else docsGet rest k

/-- Build `op_info_dict` from the infos extracted from the existing op
sections, in order. -/
def build_op_info_dict (infos : List ExistingInfo) : List (Str × ExistingInfo) :=
  infos.foldl (fun d i => assocUpdate d i.opname i) []

/-- The body of the generation loop of `update_td_op_definitions` (source
lines 564-570): find the instruction's grammar, its documentation, and
regenerate its definition reusing any extracted info. -/
def regenOp (instructions : List Instruction) (docs : List (Str × Str))
    (dict : List (Str × ExistingInfo)) (inst_category : Str) (opname : Str) :
    Except Err Str :=
  match instructions.find? (fun inst => inst.opname == opname) with
  | none => .error .noInstruction
  | some instruction =>
      match docsGet docs opname with
      | none => .error .noDoc
      | some doc =>
          get_op_definition instruction doc (assocGet dict opname) inst_category

/-- `update_td_op_definitions(path, instructions, docs, filter_list,
inst_category)` (source lines 530-577), file contents in, new contents out. -/
def update_td_op_definitions (content : Str) (instructions : List Instruction)
    (docs : List (Str × Str)) (filter_list : List Str) (inst_category : Str) :
    Except Err Str :=
  let ops := pySplit content opDefSeparator
  let header := ops.headD []
  let footer := ops.getLastD []
  let mids := (ops.drop 1).dropLast
  match exceptMapM extract_td_op_info mids with
  | .error e => .error e
  | .ok infos =>
      let dict := build_op_info_dict infos
      let filter2 := sortedDedup (filter_list ++ infos.map (fun i => i.opname))
      match exceptMapM (regenOp instructions docs dict inst_category) filter2 with
      | .error e => .error e
      | .ok op_defs => .ok (pyJoin opDefSeparator ([header] ++ op_defs ++ [footer]))

/-! ### Auxiliary definitions for stating the claims -/

/-- The spec's description of the name normalisation (`normalizeIdentifier`):
strip non-word characters, lowercase, join the remaining tokens with `'_'`. -/
def normalizeIdentifier_spec (name : Str) : Str :=
  pyJoin (str "_") (splitWs (pyLowerStr (name.filter isWordChar)))

/-- Total character count of a list of strings. -/
def sumLen : List Str → Nat
  | [] => 0
  | x :: xs => x.length + sumLen xs

/-! ### Concrete fixtures used by counterexamples and witnesses -/

/-- C1 fixture: an instruction with result type/id markers and one operand. -/
def c1Instruction : Instruction :=
  ⟨str "OpFoo", 7,
   [⟨str "IdResultType", [], []⟩, ⟨str "IdResult", [], []⟩,
    ⟨str "IdRef", [], str "Base"⟩]⟩

/-- C1 fixture: a two-line documentation string. -/
def c1Doc : Str := str "Do the foo.\nDetailed text."

/-- C1 fixture: an existing-info record supplying every field; its
category-arguments string `"X,,"` ends in commas. -/
def c1Info : ExistingInfo :=
  ⟨str "OpFoo", some (str "X,,"), some (str "T1, T2"), some (str "ASM"),
   some (str "ARGS"), some (str "RES"), some (str "EXTRA")⟩

/-- C1 fixture: the op record generated from the fixture inputs. -/
def c1Out : Str :=
  (get_op_definition c1Instruction c1Doc c1Info (str "Op")).toOption.getD []

/-- C2 fixture: the single instruction `OpNop`. -/
def c2Instructions : List Instruction := [⟨str "OpNop", 0, []⟩]

/-- C2 fixture: documentation whose body line is exactly the extractor's
custom-assembly-form marker text. -/
def c2DocsBad : List (Str × Str) :=
  [(str "OpNop", str "S\n### Custom assembly form")]

/-- C2 fixture: ordinary documentation. -/
def c2DocsGood : List (Str × Str) :=
  [(str "OpNop", str "Does nothing.\nThis instruction does nothing.")]

/-- C2 fixture: the filter list `['OpNop']`. -/
def c2Filter : List Str := [str "OpNop"]

/-- C2 fixture: an ops file containing no separator (header only). -/
def c2F0 : Str := str "HDR"

/-- C2 fixture: first-run output under the adversarial documentation. -/
def c2F1bad : Str :=
  (update_td_op_definitions c2F0 c2Instructions c2DocsBad c2Filter
    (str "Op")).toOption.getD []

/-- C2 fixture: first-run output under the ordinary documentation. -/
def c2F1good : Str :=
  (update_td_op_definitions c2F0 c2Instructions c2DocsGood c2Filter
    (str "Op")).toOption.getD []

/-- C2 fixture: the single op block of the good first-run output. -/
def c2GoodBlock : Str :=
  (((pySplit c2F1good opDefSeparator).drop 1).dropLast).headD []

/-- C2 fixture: the info extracted back from the good block. -/
def c2GoodInfo : ExistingInfo :=
  (extract_td_op_info c2GoodBlock).toOption.getD emptyInfo

/-- C3 fixture: a base file whose enum marker occurs exactly twice. -/
def c3ContentEnum : Str :=
  str "A" ++ enumSectionMarker ++ str "B" ++ enumSectionMarker ++ str "C"

/-- C3 fixture: the enum update's output on the fixture file. -/
def c3OutEnum : Str :=
  (update_td_enum_attrs c3ContentEnum [] []).toOption.getD []

/-- C3 fixture: a base file whose opcode marker occurs exactly twice. -/
def c3ContentOpcode : Str :=
  str "A" ++ opcodeSectionMarker ++ str "B" ++ opcodeSectionMarker ++ str "C"

/-- C3 fixture: the opcode update's output on the fixture file. -/
def c3OutOpcode : Str :=
  (update_td_opcodes c3ContentOpcode c2Instructions c2Filter).toOption.getD []

/-- C7 fixture: the StorageClass end-to-end scenario text from the spec. -/
def c7StorageClass : OperandKind :=
  ⟨str "StorageClass", str "ValueEnum",
   some [(str "Input", 1), (str "Output", 3), (str "Input", 1)]⟩

/-! ## Theorems

First, executable checks pinning the embedding to observed CPython
behaviour of the modelled primitives. -/

example : map_spec_operand_to_ods_argument ⟨str "IdScope", [], []⟩ =
    .ok (str "I32:$idscope") := by decide
example : map_spec_operand_to_ods_argument ⟨str "IdRef", str "*", str "Indexes"⟩ =
    .ok (str "Variadic<SPV_Type>:$indexes") := by decide
example : map_spec_operand_to_ods_argument ⟨str "MemoryAccess", str "?", []⟩ =
    .ok (str "OptionalAttr<SPV_MemoryAccessAttr>:$memoryaccess") := by decide
example : snake_casify (str "Memory Access") = str "memoryaccess" := by decide
example : reFindAll (str "def SPV_") (str "Op") (str "def SPV_CopyObjectOp : x def SPV_PhiOp") =
    [str "def SPV_CopyObjectOp", str "def SPV_PhiOp"] := by decide
example : reFindAll (str "def SPV_") (str "Attr") (str "def SPV_SC_Input  : I32EnumAttrCase") =
    ([] : List Str) := by decide
example : reFindAll (str "def SPV_OC_") [] (str "def SPV_OC_OpNop : I32 def SPV_OpcodeAttr") =
    [str "def SPV_OC_OpNop"] := by decide
example : pyFill (str "This instruction does nothing.") =
    str "    This instruction does nothing." := by decide
example : pyFill (str "  ") = ([] : Str) := by decide
example : pyFill (str "word word word word word word word word word word word word word word word word word word word word ") =
    str "    word word word word word word word word word word word word word word\n    word word word word word word" := by decide
example : pyFill (str "start aaaaaaaaaaaaaaaaaaaaaaaaaaaaaaaaaaaaaaaaaaaaaaaaaaaaaaaaaaaaaaaaaaaaaaaaaaaaaaaaaaaaaaaaaaaaaaaaaaaa") =
    str "    start aaaaaaaaaaaaaaaaaaaaaaaaaaaaaaaaaaaaaaaaaaaaaaaaaaaaaaaaaaaaaaaaaa\n    aaaaaaaaaaaaaaaaaaaaaaaaaaaaaaaaaa" := by decide

/-! ### C4: `get_string_between` failure modes -/

/-- Claim C4 (amended): `get_string_between` raises the
delimiter-not-found error exactly when the start delimiter is present but
the end delimiter does not occur in the remainder; when the start
delimiter is absent it silently returns `('', base)` instead of failing. -/
theorem C4_get_string_between_failure_modes :
    ∀ (base start ending : Str),
      (splitFirst start base = none →
        get_string_between base start ending = .ok ([], base)) ∧
      (∀ pre after, splitFirst start base = some (pre, after) →
        splitFirst ending after = none →
        get_string_between base start ending = .error .delimiterNotFound) := by
  intro base start ending
  constructor
  · intro h
    simp [get_string_between, h]
  · intro pre after h1 h2
    simp [get_string_between, h1, h2]

/-- Claim C4, counterexample to the claim as stated: with base `"abc"` the
start delimiter `"X"` is absent, yet the operation returns
`('', 'abc')` successfully instead of failing. -/
theorem C4_counterexample :
    get_string_between (str "abc") (str "X") (str "Y") =
      .ok ([], str "abc") := by decide

/-- Claim C4, witness for the amended theorem at concrete inputs. -/
theorem C4_get_string_between_failure_modes_witness :
    get_string_between (str "b") (str "X") (str "Y") = .ok ([], str "b") ∧
    get_string_between (str "aXb") (str "X") (str "Y") =
      .error .delimiterNotFound :=
  ⟨(C4_get_string_between_failure_modes (str "b") (str "X") (str "Y")).1
    (by decide),
   (C4_get_string_between_failure_modes (str "aXb") (str "X") (str "Y")).2
    (str "a") (str "b") (by decide) (by decide)⟩

/-! ### C10: the `rstrip` in `get_string_between` -/

/-- Claim C10: when both delimiters are found, `get_string_between`
returns the text between them `rstrip`ped over the end delimiter's
character set, so the recovered substring can be strictly shorter than
the actual between-text (concretely: between `'('` and `');'` in
`'f(x));'` the actual text is `'x)'` but `'x'` is returned). -/
theorem C10_get_string_between_rstrip :
    (∀ (base start ending pre after mid tail : Str),
      splitFirst start base = some (pre, after) →
      splitFirst ending after = some (mid, tail) →
      get_string_between base start ending =
        .ok (rstripChars mid ending, tail) ∧
      base = pre ++ start ++ mid ++ ending ++ tail) ∧
    (get_string_between (str "f(x));") (str "(") (str ");") =
      .ok (str "x", []) ∧
     splitFirst (str ");") (str "x));") = some (str "x)", []) ∧
     (str "x").length < (str "x)").length) := by
  constructor
  · intro base start ending pre after mid tail h1 h2
    constructor
    · simp [get_string_between, h1, h2]
    · rw [splitFirst_append h1, splitFirst_append h2]
      simp [List.append_assoc]
  · exact ⟨by decide, by decide, by decide⟩

/-- Claim C10, witness: the general equation applied to the concrete
truncating input. -/
theorem C10_get_string_between_rstrip_witness :
    get_string_between (str "f(x));") (str "(") (str ");") =
      .ok (rstripChars (str "x)") (str ");"), []) ∧
    str "f(x));" = str "f" ++ str "(" ++ str "x)" ++ str ");" ++ [] :=
  (C10_get_string_between_rstrip.1 (str "f(x));") (str "(") (str ");")
    (str "f") (str "x));") (str "x)") [] (by decide) (by decide))

/-! ### C5: the unimplemented operand kinds -/

theorem exceptMap_ok (f : Str → Str) (v : Str) :
    Except.map f (Except.ok v : Except Err Str) = .ok (f v) := rfl

theorem exceptMap_err (f : Str → Str) (e : Err) :
    Except.map f (Except.error e : Except Err Str) = .error e := rfl

theorem ok_ne_error {α ε : Type} {a : α} {e : ε} :
    (Except.ok a : Except ε α) ≠ Except.error e := fun h => Except.noConfusion h

/-- Claim C5 (amended): there are exactly SEVEN (not six) operand kinds,
all literal or pair kinds, for which `map_spec_operand_to_ods_argument`
fails with the unimplemented-kind error; an operand of any other
non-result kind never produces that error. -/
theorem C5_unimplemented_kind_iff :
    ∀ (o : Operand), o.kind ≠ str "IdResultType" → o.kind ≠ str "IdResult" →
      (map_spec_operand_to_ods_argument o = .error .unimplementedKind ↔
        o.kind ∈ unimplementedKinds) := by
  intro o h1 h2
  simp only [map_spec_operand_to_ods_argument]
  rw [if_neg h1, if_neg h2]
  by_cases hRef : o.kind = str "IdRef"
  · rw [if_pos hRef, exceptMap_ok]
    exact iff_of_false ok_ne_error (by rw [hRef]; decide)
  rw [if_neg hRef]
  by_cases hMS : o.kind = str "IdMemorySemantics" ∨ o.kind = str "IdScope"
  · rw [if_pos hMS]
    have hmem : o.kind ∉ unimplementedKinds := by
      rcases hMS with h | h <;> rw [h] <;> decide
    by_cases hq : o.quantifier = []
    · rw [if_pos hq, exceptMap_ok]
      exact iff_of_false ok_ne_error hmem
    · rw [if_neg hq, exceptMap_err]
      exact iff_of_false (fun hc => absurd (Except.error.inj hc) (by decide)) hmem
  rw [if_neg hMS]
  by_cases hLI : o.kind = str "LiteralInteger"
  · rw [if_pos hLI, exceptMap_ok]
    exact iff_of_false ok_ne_error (by rw [hLI]; decide)
  rw [if_neg hLI]
  by_cases hUn : o.kind ∈ unimplementedKinds
  · rw [if_pos hUn, exceptMap_err]
    exact iff_of_true rfl hUn
  rw [if_neg hUn]
  by_cases hVar : o.quantifier = str "*"
  · rw [if_pos hVar, exceptMap_err]
    exact iff_of_false (fun hc => absurd (Except.error.inj hc) (by decide)) hUn
  · rw [if_neg hVar, exceptMap_ok]
    exact iff_of_false ok_ne_error hUn

/-- Claim C5, counterexample to "exactly six": the source's unimplemented
branch enumerates seven pairwise-distinct kinds and every one of them
fails with the unimplemented-kind error. -/
theorem C5_counterexample :
    unimplementedKinds.length = 7 ∧ unimplementedKinds.Nodup ∧
    unimplementedKinds.map
        (fun k => map_spec_operand_to_ods_argument ⟨k, [], []⟩) =
      List.replicate 7 (Except.error Err.unimplementedKind) :=
  ⟨by decide, by decide, by decide⟩

/-- Claim C5, witness for the amended theorem at the seventh kind. -/
theorem C5_unimplemented_kind_iff_witness :
    map_spec_operand_to_ods_argument ⟨str "PairIdRefIdRef", [], []⟩ =
      .error .unimplementedKind ↔ str "PairIdRefIdRef" ∈ unimplementedKinds :=
  C5_unimplemented_kind_iff ⟨str "PairIdRefIdRef", [], []⟩
    (by decide) (by decide)

/-! ### C6: scope / memory-semantics operands -/

/-- Claim C6: an `IdScope` or `IdMemorySemantics` operand maps to a plain
`I32` argument when the quantifier is absent and fails with the
unsupported-quantifier error when the quantifier is optional or
variadic. -/
theorem C6_scope_semantics_quantifier :
    ∀ (o : Operand), (o.kind = str "IdScope" ∨ o.kind = str "IdMemorySemantics") →
      (o.quantifier = [] →
        map_spec_operand_to_ods_argument o =
          .ok (str "I32" ++ str ":$" ++ odsArgName o)) ∧
      ((o.quantifier = str "?" ∨ o.quantifier = str "*") →
        map_spec_operand_to_ods_argument o = .error .unsupportedQuantifier) := by
  intro o hk
  have h1 : o.kind ≠ str "IdResultType" := by
    rcases hk with h | h <;> rw [h] <;> decide
  have h2 : o.kind ≠ str "IdResult" := by
    rcases hk with h | h <;> rw [h] <;> decide
  have h3 : o.kind ≠ str "IdRef" := by
    rcases hk with h | h <;> rw [h] <;> decide
  have h4 : o.kind = str "IdMemorySemantics" ∨ o.kind = str "IdScope" := hk.symm
  constructor
  · intro hq
    simp only [map_spec_operand_to_ods_argument]
    rw [if_neg h1, if_neg h2, if_neg h3, if_pos h4, if_pos hq, exceptMap_ok]
  · intro hq
    have hqne : ¬ o.quantifier = [] := by
      rcases hq with h | h <;> rw [h] <;> decide
    simp only [map_spec_operand_to_ods_argument]
    rw [if_neg h1, if_neg h2, if_neg h3, if_pos h4, if_neg hqne, exceptMap_err]

/-- Claim C6, witness: `IdScope` with no quantifier maps to `I32`, and
with a variadic quantifier fails. -/
theorem C6_scope_semantics_quantifier_witness :
    map_spec_operand_to_ods_argument ⟨str "IdScope", [], str "Execution"⟩ =
      .ok (str "I32" ++ str ":$" ++ odsArgName ⟨str "IdScope", [], str "Execution"⟩) ∧
    map_spec_operand_to_ods_argument ⟨str "IdScope", str "*", []⟩ =
      .error .unsupportedQuantifier :=
  ⟨(C6_scope_semantics_quantifier ⟨str "IdScope", [], str "Execution"⟩
      (Or.inl rfl)).1 rfl,
   (C6_scope_semantics_quantifier ⟨str "IdScope", str "*", []⟩
      (Or.inl rfl)).2 (Or.inr rfl)⟩

/-! ### C9: argument-name derivation -/

theorem isWordChar_not_space {c : Char} (h : isWordChar c = true) :
    pyIsSpace c = false := by
  cases hsp : pyIsSpace c with
  | false => rfl
  | true =>
      exfalso
      simp only [pyIsSpace, Bool.or_eq_true, decide_eq_true_eq] at hsp
      rcases hsp with ((((h1 | h1) | h1) | h1) | h1) | h1 <;> subst h1 <;>
        exact absurd h (by decide)

theorem pyIsSpace_pyLowerChar (c : Char) :
    pyIsSpace (pyLowerChar c) = pyIsSpace c := by
  unfold pyLowerChar
  split <;> rfl

theorem splitWsAux_nows :
    ∀ (s acc : Str), (∀ c ∈ s, pyIsSpace c = false) →
      splitWsAux s acc =
        if acc.reverse ++ s = [] then [] else [acc.reverse ++ s] := by
  intro s
  induction s with
  | nil =>
      intro acc _
      by_cases ha : acc = []
      · simp [splitWsAux, ha]
      · have : acc.reverse ≠ [] := by simpa using ha
        simp [splitWsAux, ha, this]
  | cons c cs ih =>
      intro acc h
      have hc : pyIsSpace c = false := h c (by simp)
      simp only [splitWsAux, hc, Bool.false_eq_true, if_false]
      rw [ih (c :: acc) (fun x hx => h x (by simp [hx]))]
      have hne1 : (c :: acc).reverse ++ cs ≠ [] := by simp
      have hne2 : acc.reverse ++ (c :: cs) ≠ [] := by simp
      rw [if_neg hne1, if_neg hne2]
      simp [List.reverse_cons, List.append_assoc]

theorem splitWs_single (s : Str) (h : ∀ c ∈ s, pyIsSpace c = false)
    (hne : s ≠ []) : splitWs s = [s] := by
  unfold splitWs
  rw [splitWsAux_nows s [] h]
  simp [hne]

theorem snake_casify_eq_lower_filter (name : Str) :
    snake_casify name = pyLowerStr (name.filter isWordChar) := by
  unfold snake_casify
  by_cases ht : name.filter isWordChar = []
  · rw [ht]; rfl
  · have hnw : ∀ c ∈ name.filter isWordChar, pyIsSpace c = false := by
      intro c hc
      exact isWordChar_not_space (List.mem_filter.mp hc).2
    rw [splitWs_single _ hnw ht]
    rfl

theorem normalizeIdentifier_spec_eq_lower_filter (name : Str) :
    normalizeIdentifier_spec name = pyLowerStr (name.filter isWordChar) := by
  unfold normalizeIdentifier_spec
  by_cases ht : name.filter isWordChar = []
  · rw [ht]; rfl
  · have hnw : ∀ c ∈ pyLowerStr (name.filter isWordChar), pyIsSpace c = false := by
      intro c hc
      obtain ⟨x, hx, hxc⟩ := List.mem_map.mp hc
      rw [← hxc, pyIsSpace_pyLowerChar]
      exact isWordChar_not_space (List.mem_filter.mp hx).2
    have htne : pyLowerStr (name.filter isWordChar) ≠ [] := by
      intro hh
      exact ht (by simpa [pyLowerStr] using hh)
    rw [splitWs_single _ hnw htne]
    rfl

/-- Claim C9: for a named operand the derived argument name is
`snake_casify` of the name, which equals the spec's description (strip
non-word characters, lowercase, join remaining tokens with `'_'`); for a
nameless operand the lowercased kind is used. -/
theorem C9_argument_name_derivation :
    ∀ (o : Operand),
      (o.name ≠ [] →
        odsArgName o = snake_casify o.name ∧
        snake_casify o.name = normalizeIdentifier_spec o.name) ∧
      (o.name = [] → odsArgName o = pyLowerStr o.kind) := by
  intro o
  constructor
  · intro hne
    constructor
    · simp [odsArgName, hne]
    · rw [snake_casify_eq_lower_filter, normalizeIdentifier_spec_eq_lower_filter]
  · intro heq
    simp [odsArgName, heq]

/-- Claim C9, witness at a named operand (`"Memory Access"`) and at a
nameless operand of kind `IdScope`. -/
theorem C9_argument_name_derivation_witness :
    (str "Memory Access" ≠ ([] : Str) →
      odsArgName ⟨str "IdRef", [], str "Memory Access"⟩ =
        snake_casify (str "Memory Access") ∧
      snake_casify (str "Memory Access") =
        normalizeIdentifier_spec (str "Memory Access")) ∧
    (([] : Str) = [] → odsArgName ⟨str "IdScope", [], []⟩ =
      pyLowerStr (str "IdScope")) :=
  ⟨(C9_argument_name_derivation ⟨str "IdRef", [], str "Memory Access"⟩).1,
   (C9_argument_name_derivation ⟨str "IdScope", [], []⟩).2⟩

/-! ### C8: the 80-column packing of `split_list_into_sublists` -/

theorem sumLen_append (l : List Str) (x : Str) :
    sumLen (l ++ [x]) = sumLen l + x.length := by
  induction l with
  | nil => simp [sumLen]
  | cons y ys ih => simp [sumLen, ih]; omega

theorem pyJoin_comma_length :
    ∀ (sub : List Str), sub ≠ [] →
      (pyJoin (str ", ") sub).length + 2 = sumLen sub + 2 * sub.length := by
  intro sub
  induction sub with
  | nil => intro h; exact absurd rfl h
  | cons x xs ih =>
      intro _
      cases xs with
      | nil =>
          show (pyJoin (str ", ") [x]).length + 2 = sumLen [x] + 2 * [x].length
          simp [pyJoin, sumLen]
      | cons y ys =>
          have hxs := ih (by simp)
          have hsep : (str ", ").length = 2 := rfl
          show (x ++ str ", " ++ pyJoin (str ", ") (y :: ys)).length + 2 =
            sumLen (x :: y :: ys) + 2 * (x :: y :: ys).length
          rw [List.length_append, List.length_append, hsep]
          simp only [sumLen, List.length_cons] at hxs ⊢
          omega

theorem split_fold_ok :
    ∀ (items : List Str) (ch : List (List Str)) (cur : List Str) (n : Nat),
      (∀ sub ∈ ch, (pyJoin (str ", ") sub).length ≤ 80 ∨
        ∃ x, sub = [x] ∧ 80 < x.length) →
      ((pyJoin (str ", ") cur).length ≤ 80 ∨ ∃ x, cur = [x] ∧ 80 < x.length) →
      n = sumLen cur + 2 * cur.length →
      (∀ sub ∈ (items.foldl split_step (ch, cur, n)).1,
          (pyJoin (str ", ") sub).length ≤ 80 ∨
            ∃ x, sub = [x] ∧ 80 < x.length) ∧
      ((pyJoin (str ", ") (items.foldl split_step (ch, cur, n)).2.1).length ≤ 80 ∨
          ∃ x, (items.foldl split_step (ch, cur, n)).2.1 = [x] ∧ 80 < x.length) ∧
      (items.foldl split_step (ch, cur, n)).2.2 =
        sumLen (items.foldl split_step (ch, cur, n)).2.1 +
          2 * (items.foldl split_step (ch, cur, n)).2.1.length := by
  intro items
  induction items with
  | nil =>
      intro ch cur n h1 h2 h3
      exact ⟨h1, h2, h3⟩
  | cons it its ih =>
      intro ch cur n h1 h2 h3
      simp only [List.foldl_cons]
      by_cases hov : 80 < n + it.length + 2
      · rw [show split_step (ch, cur, n) it = (ch ++ [cur], [it], it.length + 2)
            from by simp [split_step, hov]]
        apply ih
        · intro sub hsub
          rcases List.mem_append.mp hsub with h | h
          · exact h1 sub h
          · have hx : sub = cur := by simpa using h
            rw [hx]; exact h2
        · by_cases hlen : it.length ≤ 80
          · left
            show (pyJoin (str ", ") [it]).length ≤ 80
            simpa [pyJoin] using hlen
          · right; exact ⟨it, rfl, by omega⟩
        · simp [sumLen]
      · rw [show split_step (ch, cur, n) it = (ch, cur ++ [it], n + it.length + 2)
            from by simp [split_step, hov]]
        apply ih
        · exact h1
        · left
          have hne : cur ++ [it] ≠ [] := by simp
          have hj := pyJoin_comma_length (cur ++ [it]) hne
          rw [sumLen_append] at hj
          have hlen : (cur ++ [it]).length = cur.length + 1 := by simp
          rw [hlen] at hj
          omega
        · rw [sumLen_append]
          simp only [List.length_append, List.length_cons, List.length_nil]
          omega

theorem split_fold_flatten :
    ∀ (items : List Str) (ch : List (List Str)) (cur : List Str) (n : Nat),
      ((items.foldl split_step (ch, cur, n)).1).flatten ++
          (items.foldl split_step (ch, cur, n)).2.1 =
        ch.flatten ++ cur ++ items := by
  intro items
  induction items with
  | nil => intro ch cur n; simp
  | cons it its ih =>
      intro ch cur n
      simp only [List.foldl_cons]
      by_cases hov : 80 < n + it.length + 2
      · rw [show split_step (ch, cur, n) it = (ch ++ [cur], [it], it.length + 2)
            from by simp [split_step, hov]]
        rw [ih]
        simp [List.append_assoc]
      · rw [show split_step (ch, cur, n) it = (ch, cur ++ [it], n + it.length + 2)
            from by simp [split_step, hov]]
        rw [ih]
        simp [List.append_assoc]

/-- Claim C8: every sublist produced by `split_list_into_sublists`, joined
with `', '`, stays within 80 characters, except that an item longer than
the budget sits alone in its own sublist, unmodified; and the
concatenation of the sublists is exactly the input list (nothing dropped,
nothing split mid-token). -/
theorem C8_split_list_into_sublists_bound :
    ∀ (items : List Str) (offset : Nat),
      (∀ sub ∈ split_list_into_sublists items offset,
        (pyJoin (str ", ") sub).length ≤ 80 ∨ ∃ x, sub = [x] ∧ 80 < x.length) ∧
      (split_list_into_sublists items offset).flatten = items := by
  intro items offset
  have hinv := split_fold_ok items [] [] 0
    (by intro sub h; exact absurd h (List.not_mem_nil sub))
    (by left; simp [pyJoin]) rfl
  have hfl := split_fold_flatten items [] [] 0
  simp only [List.flatten_nil, List.nil_append] at hfl
  simp only [split_list_into_sublists]
  by_cases hc : (items.foldl split_step ([], [], 0)).2.1.length ≠ 0
  · rw [if_pos hc]
    constructor
    · intro sub hsub
      rcases List.mem_append.mp hsub with h | h
      · exact hinv.1 sub h
      · have hx : sub = (items.foldl split_step ([], [], 0)).2.1 := by simpa using h
        rw [hx]; exact hinv.2.1
    · rw [List.flatten_append]
      simpa using hfl
  · rw [if_neg hc]
    have hcur : (items.foldl split_step ([], [], 0)).2.1 = [] := by
      simpa using hc
    constructor
    · intro sub hsub; exact hinv.1 sub hsub
    · rw [hcur, List.append_nil] at hfl
      exact hfl

/-- Claim C8, witness: a list with a short item and a 100-character item;
the oversized item occupies a sublist of its own and the flattening
returns the input. -/
theorem C8_split_list_into_sublists_bound_witness :
    ((pyJoin (str ", ") [str "aa"]).length ≤ 80 ∨
      ∃ x, [str "aa"] = [x] ∧ 80 < x.length) ∧
    ((pyJoin (str ", ")
        [str "aaaaaaaaaaaaaaaaaaaaaaaaaaaaaaaaaaaaaaaaaaaaaaaaaaaaaaaaaaaaaaaaaaaaaaaaaaaaaaaaaaaaaaaaaaaaaaaa"]).length ≤ 80 ∨
      ∃ x, [str "aaaaaaaaaaaaaaaaaaaaaaaaaaaaaaaaaaaaaaaaaaaaaaaaaaaaaaaaaaaaaaaaaaaaaaaaaaaaaaaaaaaaaaaaaaaaaaaa"] = [x] ∧
        80 < x.length) ∧
    (split_list_into_sublists
        [str "aa", str "aaaaaaaaaaaaaaaaaaaaaaaaaaaaaaaaaaaaaaaaaaaaaaaaaaaaaaaaaaaaaaaaaaaaaaaaaaaaaaaaaaaaaaaaaaaaaaaa"]
        6).flatten =
      [str "aa", str "aaaaaaaaaaaaaaaaaaaaaaaaaaaaaaaaaaaaaaaaaaaaaaaaaaaaaaaaaaaaaaaaaaaaaaaaaaaaaaaaaaaaaaaaaaaaaaaa"] :=
  ⟨(C8_split_list_into_sublists_bound
      [str "aa", str "aaaaaaaaaaaaaaaaaaaaaaaaaaaaaaaaaaaaaaaaaaaaaaaaaaaaaaaaaaaaaaaaaaaaaaaaaaaaaaaaaaaaaaaaaaaaaaaa"]
      6).1 [str "aa"] (by decide),
   (C8_split_list_into_sublists_bound
      [str "aa", str "aaaaaaaaaaaaaaaaaaaaaaaaaaaaaaaaaaaaaaaaaaaaaaaaaaaaaaaaaaaaaaaaaaaaaaaaaaaaaaaaaaaaaaaaaaaaaaaa"]
      6).1
     [str "aaaaaaaaaaaaaaaaaaaaaaaaaaaaaaaaaaaaaaaaaaaaaaaaaaaaaaaaaaaaaaaaaaaaaaaaaaaaaaaaaaaaaaaaaaaaaaaa"]
     (by decide),
   (C8_split_list_into_sublists_bound
      [str "aa", str "aaaaaaaaaaaaaaaaaaaaaaaaaaaaaaaaaaaaaaaaaaaaaaaaaaaaaaaaaaaaaaaaaaaaaaaaaaaaaaaaaaaaaaaaaaaaaaaa"]
      6).2⟩

/-! ### C3: marked-section surgery of the base-file updaters -/

/-- Claim C3: when the section marker splits the target file into exactly
three parts (it occurs exactly twice), `update_td_enum_attrs` and
`update_td_opcodes` rewrite only the span between the markers — the text
before the first marker and after the second marker is reproduced
byte-identically and the marker literals are re-emitted around the new
body; when the marker does not occur exactly twice, both updaters abort
with the marker-count error instead of producing output. -/
theorem C3_marked_section_surgery :
    ∀ (content : Str) (operand_kinds : List OperandKind)
      (instructions : List Instruction) (filt1 filt2 : List Str),
      (∀ pre mid post out,
        pySplit content enumSectionMarker = [pre, mid, post] →
        update_td_enum_attrs content operand_kinds filt1 = .ok out →
        ∃ body, out = pre ++ enumSectionMarker ++ str "\n\n" ++ body ++
          str "\n\n// End " ++ enumSectionMarker ++ post) ∧
      ((pySplit content enumSectionMarker).length ≠ 3 →
        update_td_enum_attrs content operand_kinds filt1 =
          .error .markerCount) ∧
      (∀ pre mid post out,
        pySplit content opcodeSectionMarker = [pre, mid, post] →
        update_td_opcodes content instructions filt2 = .ok out →
        ∃ body, out = pre ++ opcodeSectionMarker ++ str "\n\n" ++ body ++
          str "\n\n// End " ++ opcodeSectionMarker ++ post) ∧
      ((pySplit content opcodeSectionMarker).length ≠ 3 →
        update_td_opcodes content instructions filt2 =
          .error .markerCount) := by
  intro content operand_kinds instructions filt1 filt2
  refine ⟨?_, ?_, ?_, ?_⟩
  · intro pre mid post out hsplit hok
    simp only [update_td_enum_attrs, hsplit] at hok
    cases hgen : exceptMapM gen_operand_kind_enum_attr
        (operand_kinds.filter (fun kind =>
          (filt1 ++ (reFindAll (str "def SPV_") (str "Attr") mid).map
            (fun k => dropLastN (k.drop 8) 4)).contains kind.kind)) with
    | error e => rw [hgen] at hok; exact Except.noConfusion hok
    | ok defs =>
        rw [hgen] at hok
        exact ⟨pyJoin (str "\n\n") ((sortByKey defs).map (fun enum => enum.2)),
          (Except.ok.inj hok).symm⟩
  · intro hlen
    simp only [update_td_enum_attrs]
    cases hsp : pySplit content enumSectionMarker with
    | nil => rfl
    | cons a l1 =>
        cases l1 with
        | nil => rfl
        | cons b l2 =>
            cases l2 with
            | nil => rfl
            | cons c l3 =>
                cases l3 with
                | nil => exact absurd (by rw [hsp]; rfl) hlen
                | cons d l4 => rfl
  · intro pre mid post out hsplit hok
    simp only [update_td_opcodes, hsplit] at hok
    cases hgen : gen_opcode (sortByOpcode (instructions.filter
        (fun inst => (dedupAux (filt2 ++
          (reFindAll (str "def SPV_OC_") [] mid).map
            (fun k => k.drop 11)) []).contains inst.opname))) with
    | error e => rw [hgen] at hok; exact Except.noConfusion hok
    | ok opcode =>
        rw [hgen] at hok
        exact ⟨opcode, (Except.ok.inj hok).symm⟩
  · intro hlen
    simp only [update_td_opcodes]
    cases hsp : pySplit content opcodeSectionMarker with
    | nil => rfl
    | cons a l1 =>
        cases l1 with
        | nil => rfl
        | cons b l2 =>
            cases l2 with
            | nil => rfl
            | cons c l3 =>
                cases l3 with
                | nil => exact absurd (by rw [hsp]; rfl) hlen
                | cons d l4 => rfl

/-- Claim C3, witness: on a file with exactly two enum (resp. opcode)
markers the rewritten file keeps the prefix and suffix and re-emits the
markers; on a file without the marker the updaters abort. -/
theorem C3_marked_section_surgery_witness :
    (∃ body, c3OutEnum = str "A" ++ enumSectionMarker ++ str "\n\n" ++ body ++
      str "\n\n// End " ++ enumSectionMarker ++ str "C") ∧
    update_td_enum_attrs (str "X") [] [] = .error .markerCount ∧
    (∃ body, c3OutOpcode = str "A" ++ opcodeSectionMarker ++ str "\n\n" ++
      body ++ str "\n\n// End " ++ opcodeSectionMarker ++ str "C") ∧
    update_td_opcodes (str "X") c2Instructions c2Filter =
      .error .markerCount :=
  ⟨(C3_marked_section_surgery c3ContentEnum [] c2Instructions [] c2Filter).1
     (str "A") (str "B") (str "C") c3OutEnum (by decide) (by decide),
   (C3_marked_section_surgery (str "X") [] c2Instructions [] c2Filter).2.1
     (by decide),
   (C3_marked_section_surgery c3ContentOpcode [] c2Instructions [] c2Filter).2.2.1
     (str "A") (str "B") (str "C") c3OutOpcode (by decide) (by decide),
   (C3_marked_section_surgery (str "X") [] c2Instructions [] c2Filter).2.2.2
     (by decide)⟩

/-! ### C7: enumerant de-duplication and the StorageClass scenario -/

theorem uniquifyAux_sublist {α β : Type} [DecidableEq β] (f : α → β) :
    ∀ (l : List α) (seen : List β), (uniquifyAux f l seen).Sublist l := by
  intro l
  induction l with
  | nil => intro seen; simp [uniquifyAux]
  | cons x xs ih =>
      intro seen
      simp only [uniquifyAux]
      by_cases hx : f x ∈ seen
      · rw [if_pos hx]
        exact (ih seen).cons x
      · rw [if_neg hx]
        exact (ih (f x :: seen)).cons₂ x

theorem uniquifyAux_not_seen {α β : Type} [DecidableEq β] (f : α → β) :
    ∀ (l : List α) (seen : List β) (u : α), u ∈ uniquifyAux f l seen →
      f u ∉ seen := by
  intro l
  induction l with
  | nil => intro seen u h; exact absurd h (List.not_mem_nil u)
  | cons x xs ih =>
      intro seen u h
      simp only [uniquifyAux] at h
      by_cases hx : f x ∈ seen
      · rw [if_pos hx] at h
        exact ih seen u h
      · rw [if_neg hx] at h
        rcases List.mem_cons.mp h with h1 | h1
        · rw [h1]; exact hx
        · have := ih (f x :: seen) u h1
          intro hc
          exact this (List.mem_cons_of_mem _ hc)

theorem uniquifyAux_keys_nodup {α β : Type} [DecidableEq β] (f : α → β) :
    ∀ (l : List α) (seen : List β),
      ((uniquifyAux f l seen).map f).Nodup := by
  intro l
  induction l with
  | nil => intro seen; simp [uniquifyAux]
  | cons x xs ih =>
      intro seen
      simp only [uniquifyAux]
      by_cases hx : f x ∈ seen
      · rw [if_pos hx]; exact ih seen
      · rw [if_neg hx]
        simp only [List.map_cons, List.nodup_cons]
        constructor
        · intro hc
          obtain ⟨u, hu, hfu⟩ := List.mem_map.mp hc
          have := uniquifyAux_not_seen f xs (f x :: seen) u hu
          exact this (by rw [hfu]; exact List.mem_cons_self _ _)
        · exact ih (f x :: seen)

theorem uniquifyAux_covers {α β : Type} [DecidableEq β] (f : α → β) :
    ∀ (l : List α) (seen : List β) (c : α), c ∈ l →
      f c ∈ seen ∨ ∃ u ∈ uniquifyAux f l seen, f u = f c := by
  intro l
  induction l with
  | nil => intro seen c h; exact absurd h (List.not_mem_nil c)
  | cons x xs ih =>
      intro seen c h
      simp only [uniquifyAux]
      by_cases hx : f x ∈ seen
      · rw [if_pos hx]
        rcases List.mem_cons.mp h with h1 | h1
        · left; rw [h1]; exact hx
        · exact ih seen c h1
      · rw [if_neg hx]
        rcases List.mem_cons.mp h with h1 | h1
        · right; exact ⟨x, List.mem_cons_self _ _, by rw [h1]⟩
        · rcases ih (f x :: seen) c h1 with h2 | h2
          · rcases List.mem_cons.mp h2 with h3 | h3
            · right; exact ⟨x, List.mem_cons_self _ _, h3.symm⟩
            · left; exact h3
          · obtain ⟨u, hu, hfu⟩ := h2
            right; exact ⟨u, List.mem_cons_of_mem _ hu, hfu⟩

theorem uniquifyAux_first {α β : Type} [DecidableEq β] (f : α → β) :
    ∀ (l : List α) (seen : List β) (u : α), u ∈ uniquifyAux f l seen →
      ∃ pre suf, l = pre ++ u :: suf ∧ ∀ c ∈ pre, f c ≠ f u := by
  intro l
  induction l with
  | nil => intro seen u h; exact absurd h (List.not_mem_nil u)
  | cons x xs ih =>
      intro seen u h
      have hns := uniquifyAux_not_seen f (x :: xs) seen u h
      simp only [uniquifyAux] at h
      by_cases hx : f x ∈ seen
      · rw [if_pos hx] at h
        obtain ⟨pre, suf, hl, hpre⟩ := ih seen u h
        refine ⟨x :: pre, suf, by rw [hl]; rfl, ?_⟩
        intro c hc
        rcases List.mem_cons.mp hc with h1 | h1
        · rw [h1]
          intro hc2
          exact hns (by rw [← hc2]; exact hx)
        · exact hpre c h1
      · rw [if_neg hx] at h
        rcases List.mem_cons.mp h with h1 | h1
        · refine ⟨[], xs, by rw [h1]; rfl, ?_⟩
          intro c hc
          exact absurd hc (List.not_mem_nil c)
        · have hns2 := uniquifyAux_not_seen f xs (f x :: seen) u h1
          obtain ⟨pre, suf, hl, hpre⟩ := ih (f x :: seen) u h1
          refine ⟨x :: pre, suf, by rw [hl]; rfl, ?_⟩
          intro c hc
          rcases List.mem_cons.mp hc with h2 | h2
          · rw [h2]
            intro hc2
            exact hns2 (by rw [← hc2]; exact List.mem_cons_self _ _)
          · exact hpre c h2

/-- Claim C7: `uniquify` over the enumerant list keeps exactly one entry
per distinct numeric value — the first-declared one — preserving
declaration order, and one case-definition line is emitted per kept
entry; concretely, for StorageClass with enumerants
`[("Input",1),("Output",3),("Input",1)]` the generator emits exactly the
two case definitions `Input` (value 1) then `Output` (value 3) and an
aggregate block listing both identifiers with the duplicate suppressed. -/
theorem C7_enum_dedup_first_wins :
    (∀ (cases_ : List (Str × Nat)),
      (uniquify cases_ (fun c => c.2)).Sublist cases_ ∧
      ((uniquify cases_ (fun c => c.2)).map (fun c => c.2)).Nodup ∧
      (∀ c ∈ cases_, ∃ u ∈ uniquify cases_ (fun c => c.2), u.2 = c.2) ∧
      (∀ u ∈ uniquify cases_ (fun c => c.2),
        ∃ pre suf, cases_ = pre ++ u :: suf ∧ ∀ c ∈ pre, c.2 ≠ u.2) ∧
      (∀ acr cat ml, (enum_case_defs acr cat ml cases_).length =
        cases_.length)) ∧
    gen_operand_kind_enum_attr c7StorageClass =
      .ok (str "StorageClass",
        str "def SPV_SC_Input  : I32EnumAttrCase<\"Input\", 1>;\ndef SPV_SC_Output : I32EnumAttrCase<\"Output\", 3>;\n\ndef SPV_StorageClassAttr :\n    I32EnumAttr<\"StorageClass\", \"valid SPIR-V StorageClass\", [\n      SPV_SC_Input, SPV_SC_Output\n    ]> \x7b\n  let returnType = \"::mlir::spirv::StorageClass\";\n  let convertFromStorage = \"static_cast<::mlir::spirv::StorageClass>($_self.getInt())\";\n  let cppNamespace = \"::mlir::spirv\";\n\x7d") := by
  constructor
  · intro cases_
    refine ⟨uniquifyAux_sublist _ cases_ [],
            uniquifyAux_keys_nodup _ cases_ [],
            ?_, ?_, ?_⟩
    · intro c hc
      rcases uniquifyAux_covers (fun c => c.2) cases_ [] c hc with h | h
      · exact absurd h (List.not_mem_nil _)
      · obtain ⟨u, hu, hfu⟩ := h
        exact ⟨u, hu, hfu⟩
    · intro u hu
      simp only [uniquify] at hu
      exact uniquifyAux_first (fun c => c.2) cases_ [] u hu
    · intro acr cat ml
      simp [enum_case_defs]
  · decide

/-- Claim C7, witness: first-wins de-duplication applied to a concrete
two-entry list sharing a numeric value. -/
theorem C7_enum_dedup_first_wins_witness :
    (str "B", 1) ∈ [(str "A", 1), (str "B", 1)] ∧
    ∃ u ∈ uniquify [(str "A", 1), (str "B", 1)] (fun c => c.2), u.2 = 1 :=
  ⟨by decide,
   (C7_enum_dedup_first_wins.1 [(str "A", 1), (str "B", 1)]).2.2.1
     (str "B", 1) (by decide)⟩

/-! ### C1: preservation of existing-info fields -/

/-- Claim C1 (amended): when the existing-info record supplies every
field, `get_op_definition` (instruction category `Op`, where all six
slots are rendered) splices the supplied traits, assembly form,
arguments, results and extras into the record verbatim, skipping all
derivation, while the summary and description are still derived from the
documentation; the supplied category-arguments string, however, is NOT
reproduced verbatim: it is emitted with trailing `','`/`' '` characters
stripped and `', '` appended. -/
theorem C1_preservation :
    ∀ (instruction : Instruction) (doc s d on_ ca tr asm args res ex : Str),
      splitFirst (str "\n") doc = some (s, d) →
      get_op_definition instruction doc
        ⟨on_, some ca, some tr, some asm, some args, some res, some ex⟩
        (str "Op") =
      .ok (str "def SPV_" ++ instruction.opname.drop 2 ++ str "Op : SPV_" ++
        str "Op" ++ str "<\"" ++ instruction.opname.drop 2 ++ str "\"" ++
        (rstripChars ca (str ", ") ++ str ", ") ++ str "[" ++ tr ++
        str "]> \x7b\n  let summary = " ++ formatSummary s ++
        str ";\n\n  let description = [\x7b\n" ++ formatDescription d ++
        str "\n\n    ### Custom assembly form\n" ++ asm ++ str "\x7d];\n" ++
        (str "\n  let arguments = (ins" ++ args ++
         str ");\n\n  let results = (outs" ++ res ++ str ");\n") ++
        ex ++ str "\x7d\n") := by
  intro instruction doc s d on_ ca tr asm args res ex h
  simp only [get_op_definition, h, Option.getD_some]
  rw [if_pos trivial]

/-- Claim C1, counterexample to the claim as stated: the supplied
category-arguments string `"X,,"` does not occur anywhere in the
generated record (so it is not reproduced verbatim); the record instead
contains its normalised form `rstrip(', ') ++ ', '`, i.e. `"X, "`. -/
theorem C1_counterexample :
    c1Info.category_args = some (str "X,,") ∧
    get_op_definition c1Instruction c1Doc c1Info (str "Op") = .ok c1Out ∧
    ¬ (str "X,,") <:+: c1Out ∧
    (rstripChars (str "X,,") (str ", ") ++ str ", ") <:+: c1Out :=
  ⟨by decide, by decide, by decide, by decide⟩

/-- Claim C1, witness: the amended preservation equation at the concrete
fixture (every field supplied, including arguments and results that
override the derived ones). -/
theorem C1_preservation_witness :
    splitFirst (str "\n") c1Doc = some (str "Do the foo.", str "Detailed text.") ∧
    get_op_definition c1Instruction c1Doc
      ⟨str "OpFoo", some (str "X,,"), some (str "T1, T2"), some (str "ASM"),
       some (str "ARGS"), some (str "RES"), some (str "EXTRA")⟩ (str "Op") =
    .ok (str "def SPV_" ++ c1Instruction.opname.drop 2 ++ str "Op : SPV_" ++
      str "Op" ++ str "<\"" ++ c1Instruction.opname.drop 2 ++ str "\"" ++
      (rstripChars (str "X,,") (str ", ") ++ str ", ") ++ str "[" ++
      str "T1, T2" ++ str "]> \x7b\n  let summary = " ++
      formatSummary (str "Do the foo.") ++
      str ";\n\n  let description = [\x7b\n" ++
      formatDescription (str "Detailed text.") ++
      str "\n\n    ### Custom assembly form\n" ++ str "ASM" ++ str "\x7d];\n" ++
      (str "\n  let arguments = (ins" ++ str "ARGS" ++
       str ");\n\n  let results = (outs" ++ str "RES" ++ str ");\n") ++
      str "EXTRA" ++ str "\x7d\n") :=
  ⟨by decide,
   C1_preservation c1Instruction c1Doc (str "Do the foo.")
     (str "Detailed text.") (str "OpFoo") (str "X,,") (str "T1, T2")
     (str "ASM") (str "ARGS") (str "RES") (str "EXTRA") (by decide)⟩

/-! ### C2: regeneration idempotence -/

/-- Claim C2 (amended): a second run of `update_td_op_definitions` on the
first run's output is byte-identical provided the output round-trips:
the file splits on the op separator into the same header, op blocks and
footer; extraction succeeds on every block; the sorted deduplicated
union of the filter list with the recovered opnames equals the recovered
opname sequence; and regenerating each recovered opname from its
extracted info reproduces exactly the original block.  (The
counterexample shows these side conditions are necessary: documentation
containing the extractor's assembly-form marker breaks them.) -/
theorem C2_idempotence_roundtrip :
    ∀ (instructions : List Instruction) (docs : List (Str × Str))
      (filter_list : List Str) (inst_category : Str)
      (f1 header footer : Str) (blocks : List Str) (infos : List ExistingInfo),
      pySplit f1 opDefSeparator = header :: (blocks ++ [footer]) →
      exceptMapM extract_td_op_info blocks = .ok infos →
      sortedDedup (filter_list ++ infos.map (fun i => i.opname)) =
        infos.map (fun i => i.opname) →
      exceptMapM
        (regenOp instructions docs (build_op_info_dict infos) inst_category)
        (infos.map (fun i => i.opname)) = .ok blocks →
      update_td_op_definitions f1 instructions docs filter_list
        inst_category = .ok f1 := by
  intro instructions docs filter_list inst_category f1 header footer blocks
    infos h1 h2 h3 h4
  have hmid : ((header :: (blocks ++ [footer])).drop 1).dropLast = blocks := by
    simp
  have hjoin : pyJoin opDefSeparator (pySplit f1 opDefSeparator) = f1 :=
    pyJoin_pySplit f1 opDefSeparator (by decide)
  simp only [update_td_op_definitions, h1, hmid, h2, h3, h4]
  have hlist : [(header :: (blocks ++ [footer])).headD []] ++ blocks ++
      [(header :: (blocks ++ [footer])).getLastD []] =
      header :: (blocks ++ [footer]) := by
    have hlast : (header :: (blocks ++ [footer])).getLast? = some footer := by
      rw [← List.cons_append]
      exact List.getLast?_concat _
    simp [List.getLastD_eq_getLast?, hlast]
  rw [hlist, ← h1, hjoin]

/-- Claim C2, counterexample to the claim as stated: with the (benign for
the first run) documentation whose body line is the literal
`### Custom assembly form`, the first run succeeds, but the second run
on its output — same spec, same filter list — is not byte-identical:
the extractor mis-splits at the marker inside the description and the
duplicated text is re-emitted into the preserved assembly section. -/
theorem C2_counterexample :
    update_td_op_definitions c2F0 c2Instructions c2DocsBad c2Filter
      (str "Op") = .ok c2F1bad ∧
    update_td_op_definitions c2F1bad c2Instructions c2DocsBad c2Filter
      (str "Op") ≠ .ok c2F1bad :=
  ⟨by decide, by decide⟩

/-- Claim C2, witness: for ordinary documentation all round-trip side
conditions hold and the second run reproduces the first run's output
byte for byte. -/
theorem C2_idempotence_roundtrip_witness :
    pySplit c2F1good opDefSeparator =
      str "HDR" :: ([c2GoodBlock] ++ [str "HDR"]) ∧
    exceptMapM extract_td_op_info [c2GoodBlock] = .ok [c2GoodInfo] ∧
    sortedDedup (c2Filter ++ [c2GoodInfo].map (fun i => i.opname)) =
      [c2GoodInfo].map (fun i => i.opname) ∧
    exceptMapM
      (regenOp c2Instructions c2DocsGood (build_op_info_dict [c2GoodInfo])
        (str "Op")) ([c2GoodInfo].map (fun i => i.opname)) =
      .ok [c2GoodBlock] ∧
    update_td_op_definitions c2F1good c2Instructions c2DocsGood c2Filter
      (str "Op") = .ok c2F1good :=
  ⟨by decide, by decide, by decide, by decide,
   C2_idempotence_roundtrip c2Instructions c2DocsGood c2Filter (str "Op")
     c2F1good (str "HDR") (str "HDR") [c2GoodBlock] [c2GoodInfo]
     (by decide) (by decide) (by decide) (by decide)⟩
